import Mathlib

/-!
Verification development for the loxx_core offline routing engine.

The C++ sources under `src/core` are shallowly embedded:
`double` arithmetic is modelled over `ℚ` (IEEE-754 rounding is not part of
any claim); the `double` value `infinity` used as a sentinel is modelled by
`WithTop ℚ` or by `Option`; machine integers are `ℕ`/`ℤ` with explicit
masking where the source masks.  Transcendental geodesy (`haversine`,
the Web-Mercator `y` formula) is kept as a parameter (`GeoModel`) because
its exact floating value is not computable; every structural property
proved here holds for an arbitrary such function, and concrete runs use a
concrete computable instance.
-/

namespace LoxxCore

/-- Travel profile (`router.h`, `enum class Profile`). -/
inductive Profile where
  | Car
  | Foot
deriving DecidableEq, Repr

/-- Route status (`router.h`, `enum class RouteStatus`). -/
inductive RouteStatus where
  | OK
  | NO_ROUTE
  | NO_TILE
  | DATA_ERROR
  | INTERNAL_ERROR
deriving DecidableEq, Repr

/-- Geographic coordinate (`router.h`, `struct Coord`); `double` fields modelled as `ℚ`. -/
structure Coord where
  lat : ℚ := 0
  lon : ℚ := 0
deriving DecidableEq, Repr, Inhabited

/-- Route result (`router.h`, `struct RouteResult`).  `duration_s` is
`Option ℚ` because the source accumulates `double` values that can be
`infinity` (an edge with non-positive speed); `none` models `infinity`. -/
structure RouteResult where
  status : RouteStatus := .INTERNAL_ERROR
  polyline : List Coord := []
  distance_m : ℚ := 0
  duration_s : Option ℚ := some 0
  edge_ids : List ℕ := []
  error_message : String := ""
deriving DecidableEq, Repr

/-- Tile key (`tile_store.h`, `struct TileKey`). -/
structure TileKey where
  z : ℤ
  x : ℤ
  y : ℤ
deriving DecidableEq, Repr, Inhabited

namespace edgeid

/-- Embedding of `edgeid::make` (`edge_id.h` lines 8-15): packs
`[z:8][x:20][y:20][edgeIdx:16]` into a 64-bit id.  The `int`/`uint32_t`
arguments are modelled as `ℕ` (the claim's domain is non-negative); the
C masks `& 0xFF` etc. are kept literally. -/
def make (z x y edgeIdx : ℕ) : ℕ :=
  ((z &&& 0xFF) <<< 56) ||| ((x &&& 0xFFFFF) <<< 36) ||| ((y &&& 0xFFFFF) <<< 16) |||
    (edgeIdx &&& 0xFFFF)

/-- Embedding of `edgeid::parse` (`edge_id.h` lines 17-22): the four out
parameters are returned as a tuple `(z, x, y, edgeIdx)`. -/
def parse (id : ℕ) : ℕ × ℕ × ℕ × ℕ :=
  ((id >>> 56) &&& 0xFF, (id >>> 36) &&& 0xFFFFF, (id >>> 16) &&& 0xFFFFF, id &&& 0xFFFF)

end edgeid

/-! ## Tile blob data model

Modelled from the spec: the flatbuffers-generated accessors
(`land_tile_generated.h`) are not under `src/`; the record layout below
follows the blob schema of spec §6.2 (`Node`, `Edge`, `ShapePoint`,
`LandTile`).  Fields the routing core never reads (`id`, `z`, `x`, `y`,
`version`, `checksum`, `profile_mask`, `road_class`) are omitted.
A flatbuffers vector or string field can be absent (accessor returns
`nullptr`); for `shapes` and `encoded_polyline` that absence is branched
on by the core, so they are `Option`; `nodes`/`edges` absence is
observationally an empty vector (`nodeCount`/`edgeCount` return 0). -/

/-- Shape point (spec §6.2 `ShapePoint`): quantized lat/lon (`i32`). -/
structure ShapePoint where
  lat_q : ℤ := 0
  lon_q : ℤ := 0
deriving DecidableEq, Repr, Inhabited

/-- Tile-local node (spec §6.2 `Node`). -/
structure Node where
  lat_q : ℤ := 0
  lon_q : ℤ := 0
  first_edge : ℕ := 0
  edge_count : ℕ := 0
deriving DecidableEq, Repr, Inhabited

/-- Tile-local directed edge (spec §6.2 `Edge`); `f32` fields modelled as `ℚ`,
`encoded_polyline` as the list of its character codes (`none` = field absent). -/
structure Edge where
  from_node : ℕ := 0
  to_node : ℕ := 0
  length_m : ℚ := 0
  speed_mps : ℚ := 0
  foot_speed_mps : ℚ := 0
  oneway : Bool := false
  access_mask : ℕ := 0
  shape_start : ℕ := 0
  shape_count : ℕ := 0
  encoded_polyline : Option (List ℕ) := none
deriving DecidableEq, Repr, Inhabited

/-- Tile root (spec §6.2 `LandTile`), restricted to the vectors the core reads. -/
structure LandTile where
  nodes : List Node := []
  edges : List Edge := []
  shapes : Option (List ShapePoint) := none
deriving DecidableEq, Repr, Inhabited

/-! ## TileView (`tile_view.h`)

The C++ `TileView` is a zero-copy reader over the blob; here its accessors
are functions over `LandTile`.  Out-of-range `Get` calls are undefined
behaviour in the source; they are modelled by `getD`/`default` (the claims
only concern in-range data). -/

/-- `TileView::nodeCount` (`tile_view.h` line 23). -/
def nodeCount (t : LandTile) : ℕ := t.nodes.length

/-- `TileView::edgeCount` (`tile_view.h` line 26). -/
def edgeCount (t : LandTile) : ℕ := t.edges.length

/-- Node accessor backing `nodeLat`/`nodeLon`/`firstEdge`/`edgeCountFrom`. -/
def nodeAt (t : LandTile) (idx : ℕ) : Node := t.nodes.getD idx default

/-- `TileView::nodeLat` (`tile_view.h` line 31): quantized latitude over 1e6. -/
def nodeLat (t : LandTile) (idx : ℕ) : ℚ := ((nodeAt t idx).lat_q : ℚ) / 1000000

/-- `TileView::nodeLon` (`tile_view.h` line 35). -/
def nodeLon (t : LandTile) (idx : ℕ) : ℚ := ((nodeAt t idx).lon_q : ℚ) / 1000000

/-- `TileView::nodeLatQ` (`tile_view.h` line 39). -/
def nodeLatQ (t : LandTile) (idx : ℕ) : ℤ := (nodeAt t idx).lat_q

/-- `TileView::nodeLonQ` (`tile_view.h` line 43). -/
def nodeLonQ (t : LandTile) (idx : ℕ) : ℤ := (nodeAt t idx).lon_q

/-- `TileView::firstEdge` (`tile_view.h` line 49). -/
def firstEdge (t : LandTile) (nodeIdx : ℕ) : ℕ := (nodeAt t nodeIdx).first_edge

/-- `TileView::edgeCountFrom` (`tile_view.h` line 53). -/
def edgeCountFrom (t : LandTile) (nodeIdx : ℕ) : ℕ := (nodeAt t nodeIdx).edge_count

/-- `TileView::edgeAt` (`tile_view.h` line 57). -/
def edgeAt (t : LandTile) (edgeIdx : ℕ) : Edge := t.edges.getD edgeIdx default

/-- `TileView::inEdgesOf` / `ensureInAdjBuilt` (`tile_view.h` lines 62-64 and
122-134): the lazily built reverse adjacency lists edge indices in increasing
order grouped by `to_node` (indices with `to_node ≥ nodeCount` are dropped by
the `to < N` guard). -/
def inEdgesOf (t : LandTile) (nodeIdx : ℕ) : List ℕ :=
  (List.range t.edges.length).filter
    (fun ei => (edgeAt t ei).to_node = nodeIdx ∧ (edgeAt t ei).to_node < nodeCount t)

/-- One signed-varint value of the encoded-polyline scheme
(`tile_view.h` lines 103-107, the `next` lambda): consumes 5-bit chunks
while the continuation bit (`b ≥ 0x20`) is set and input remains, and
returns the accumulated pre-zigzag value with the rest of the input.
Characters below 63 would make the C++ `int b` negative; such strings are
not produced by the converter and are outside every claim, so `ℕ`
truncated subtraction stands in for the two's-complement arithmetic. -/
def polyNextAux (s : List ℕ) (result : ℕ) (shift : ℕ) : ℕ × List ℕ :=
  match s with
  | [] => (result, [])
  | c :: rest =>
    let b := c - 63
    let result' := result ||| ((b &&& 0x1f) <<< shift)
    if b ≥ 0x20 ∧ rest ≠ [] then polyNextAux rest result' (shift + 5) else (result', rest)

/-- Final zigzag step of `next` (`tile_view.h` line 106):
`(result & 1) ? ~(result >> 1) : (result >> 1)`. -/
def zigzagDecode (result : ℕ) : ℤ :=
  if result &&& 1 = 1 then -((result >>> 1 : ℕ) : ℤ) - 1 else ((result >>> 1 : ℕ) : ℤ)

/-- Loop body of `TileView::decodeEncodedPolyline` (`tile_view.h` lines
108-119).  `fuel` bounds the iteration count; every iteration consumes at
least one input character, so `fuel = s.length` (as passed by
`decodeEncodedPolyline`) never runs out before the input does and the
function computes exactly the C++ `while (index < len)` loop. -/
def decodeLoopPoly (fuel : ℕ) (s : List ℕ) (lat lon : ℤ) (first : Bool)
    (out : List (ℚ × ℚ)) (skipFirst : Bool) : List (ℚ × ℚ) :=
  match fuel, s with
  | 0, _ => out
  | _, [] => out
  | fuel + 1, s@(_ :: _) =>
    let p1 := polyNextAux s 0 0
    let p2 := polyNextAux p1.2 0 0
    let lat' := lat + zigzagDecode p1.1
    let lon' := lon + zigzagDecode p2.1
    let out' := if skipFirst ∧ first ∧ out ≠ [] then out
                else out ++ [((lat' : ℚ) / 100000, (lon' : ℚ) / 100000)]
    decodeLoopPoly fuel p2.2 lat' lon' false out' skipFirst

/-- `TileView::decodeEncodedPolyline` (`tile_view.h` lines 97-120). -/
def decodeEncodedPolyline (s : List ℕ) (out : List (ℚ × ℚ)) (skipFirst : Bool) :
    List (ℚ × ℚ) :=
  decodeLoopPoly s.length s 0 0 true out skipFirst

/-- Shape-pool point accessor used by the explicit-shape branch. -/
def shapeAt (t : LandTile) (idx : ℕ) : ShapePoint := (t.shapes.getD []).getD idx default

/-- `TileView::appendEdgeShape` (`tile_view.h` lines 68-92): appends the
edge polyline into `out`, resolving explicit shape slice, then encoded
polyline, then the two endpoint nodes; `skipFirst` drops the first point
when `out` is already non-empty. -/
def appendEdgeShape (t : LandTile) (edgeIdx : ℕ) (out : List (ℚ × ℚ))
    (skipFirst : Bool) : List (ℚ × ℚ) :=
  let e := edgeAt t edgeIdx
  if t.shapes.isSome ∧ 0 < e.shape_count then
    (List.range e.shape_count).foldl (fun acc k =>
      let sp := shapeAt t (e.shape_start + k)
      if skipFirst ∧ k = 0 ∧ acc ≠ [] then acc
      else acc ++ [((sp.lat_q : ℚ) / 1000000, (sp.lon_q : ℚ) / 1000000)]) out
  else
    match e.encoded_polyline with
    | some s => decodeEncodedPolyline s out skipFirst
    | none =>
      let out1 := if ¬skipFirst ∨ out = [] then
          out ++ [(nodeLat t e.from_node, nodeLon t e.from_node)] else out
      out1 ++ [(nodeLat t e.to_node, nodeLon t e.to_node)]

/-! ## Tile store (`tile_store.h`, `tile_store.cpp`)

The sqlite backing table is modelled as a function from key to row:
`none` = no row; `some none` = row whose `data` column is NULL;
`some (some bs)` = row with blob bytes `bs`.  A prepare/step error also
yields `nullptr` in the source and is covered by the `none` case. -/

/-- Blob bytes of the `data` column. -/
abbrev Blob := List ℕ

/-- Backing database model (the `land_tiles` table keyed by `(z,x,y)`). -/
abbrev TileDb := TileKey → Option (Option Blob)

/-- `TileStore::loadFromDb` (`tile_store.cpp` lines 41-67): returns the blob
only when the row exists and the column is a non-null, non-empty blob
(`if (blob && size > 0)`). -/
def loadFromDb (db : TileDb) (z x y : ℤ) : Option Blob :=
  match db ⟨z, x, y⟩ with
  | none => none
  | some none => none
  | some (some bs) => if bs.length > 0 then some bs else none

/-- LRU cache state: `entries` is the `lru_` list (front = most recently
used) paired with each key's cached blob (the `map_` contents). -/
structure CacheState where
  capacity : ℕ
  entries : List (TileKey × Blob) := []
deriving DecidableEq, Repr

/-- Lookup in the cache (`map_.find`). -/
def lookupEntry : List (TileKey × Blob) → TileKey → Option Blob
  | [], _ => none
  | e :: rest, k => if e.1 = k then some e.2 else lookupEntry rest k

/-- Removal of a key's entry from the recency list (`lru_.erase(it)`). -/
def eraseEntry : List (TileKey × Blob) → TileKey → List (TileKey × Blob)
  | [], _ => []
  | e :: rest, k => if e.1 = k then rest else e :: eraseEntry rest k

/-- `TileStore::insertLRU` (`tile_store.cpp` lines 77-90): no-op at
capacity 0; evicts the back (least recently used) entry when full; then
pushes the new entry to the front. -/
def insertLRU (st : CacheState) (k : TileKey) (b : Blob) : CacheState :=
  if st.capacity = 0 then st
  else
    let entries := if st.entries.length ≥ st.capacity then st.entries.dropLast else st.entries
    { st with entries := (k, b) :: entries }

/-- `TileStore::load` (`tile_store.cpp` lines 23-39): hit promotes the entry
to the front and returns its blob; miss consults `loadFromDb` and inserts
on success. -/
def load (db : TileDb) (st : CacheState) (z x y : ℤ) : Option Blob × CacheState :=
  let key : TileKey := ⟨z, x, y⟩
  match lookupEntry st.entries key with
  | some blob => (some blob, { st with entries := (key, blob) :: eraseEntry st.entries key })
  | none =>
    match loadFromDb db z x y with
    | none => (none, st)
    | some blob => (some blob, insertLRU st key blob)

/-- A sequence of `load` calls, keeping only the final cache state. -/
def runLoads (db : TileDb) (st : CacheState) : List TileKey → CacheState
  | [] => st
  | k :: ks => runLoads db (load db st k.z k.x k.y).2 ks

/-! ## Router geodesy and snapping (`router.cpp`)

`Impl::haversine` and the Web-Mercator `y` of `webTileKeyFor` are
transcendental (`sin`/`atan2`/`log`/`tan`); their values are parameters of
the development (`GeoModel`).  Every structural theorem below is proved
for an arbitrary `GeoModel`; concrete runs instantiate it with a
computable surrogate. -/

/-- Parameter bundle for the transcendental geodesy.  `haversine` models
`Router::Impl::haversine(lat1, lon1, lat2, lon2)` (`router.cpp` lines
32-41); `webY lat z` models the integer
`floor((1 - log(tan(lat_rad) + 1/cos(lat_rad))/pi)/2 * 2^z)` of
`webTileKeyFor` (`tiler.h` line 13) before clamping. -/
structure GeoModel where
  haversine : ℚ → ℚ → ℚ → ℚ → ℚ
  webY : ℚ → ℕ → ℤ

/-- `webTileKeyFor` (`tiler.h` lines 9-17): exact rational `x` column,
parameterised `y` row, both clamped into `[0, 2^z)`. -/
def webTileKeyFor (geo : GeoModel) (lat lon : ℚ) (z : ℕ) : TileKey :=
  let n : ℤ := 2 ^ z
  let x0 : ℤ := Int.floor ((lon + 180) / 360 * (n : ℚ))
  let y0 : ℤ := geo.webY lat z
  let x1 := if x0 < 0 then 0 else x0
  let x2 := if x1 ≥ n then n - 1 else x1
  let y1 := if y0 < 0 then 0 else y0
  let y2 := if y1 ≥ n then n - 1 else y1
  ⟨(z : ℤ), x2, y2⟩

/-- `Router::Impl::collectTileRange` (`router.cpp` lines 491-504): all keys
of the frame-expanded rectangle spanning the two endpoint tiles, row-major
(`y` outer, `x` inner), without clamping to the zoom's valid range. -/
def collectTileRange (geo : GeoModel) (tileZoom : ℕ) (a b : Coord) (frame : ℤ) :
    List TileKey :=
  let ka := webTileKeyFor geo a.lat a.lon tileZoom
  let kb := webTileKeyFor geo b.lat b.lon tileZoom
  let minx := min ka.x kb.x - frame
  let maxx := max ka.x kb.x + frame
  let miny := min ka.y kb.y - frame
  let maxy := max ka.y kb.y + frame
  ((List.range (maxy - miny + 1).toNat).map (fun dy => miny + (dy : ℤ))).flatMap
    (fun y => ((List.range (maxx - minx + 1).toNat).map (fun dx => minx + (dx : ℤ))).map
      (fun x => ⟨(tileZoom : ℤ), x, y⟩))

/-- Extended comparison `a < b` where `none` models the `double` `infinity`. -/
def infLt (a b : Option ℚ) : Bool :=
  match a, b with
  | none, _ => false
  | some _, none => true
  | some x, some y => x < y

/-- Extended addition where `none` models `infinity`. -/
def infAdd (a b : Option ℚ) : Option ℚ :=
  match a, b with
  | some x, some y => some (x + y)
  | _, _ => none

/-- `Router::Impl::EdgeSnap` (`router.cpp` lines 48-57); `dist_m` is
`Option ℚ` with `none` for the `infinity` initializer. -/
structure EdgeSnap where
  edgeIdx : ℕ := 0
  fromNode : ℤ := -1
  toNode : ℤ := -1
  segIndex : ℤ := -1
  t : ℚ := 0
  projLat : ℚ := 0
  projLon : ℚ := 0
  dist_m : Option ℚ := none
deriving DecidableEq, Repr, Inhabited

/-- `Router::Impl::projectPointToSegment` (`router.cpp` lines 59-69);
returns `(outX, outY, t)`. -/
def projectPointToSegment (ax ay bx by_ px py : ℚ) : ℚ × ℚ × ℚ :=
  let vx := bx - ax
  let vy := by_ - ay
  let wx := px - ax
  let wy := py - ay
  let c1 := vx * wx + vy * wy
  let c2 := vx * vx + vy * vy
  let t := if c2 ≤ 1 / 1000000000000 then 0 else max 0 (min 1 (c1 / c2))
  (ax + t * vx, ay + t * vy, t)

/-- The profile speed of an edge as read by `snapToEdge`
(`router.cpp` line 83, `double sp = ...`). -/
def snapSpeed (profile : Profile) (e : Edge) : ℚ :=
  if profile = .Car then e.speed_mps else e.foot_speed_mps

/-- The profile access test of `snapToEdge`
(`router.cpp` lines 84-85, `bool allowed = ...`). -/
def snapAllowed (profile : Profile) (e : Edge) : Bool :=
  if profile = .Car then (e.access_mask &&& 1) != 0 else (e.access_mask &&& 2) != 0

/-- Inner segment loop body of `snapToEdge` (`router.cpp` lines 89-110):
project onto segment `(tmp[k], tmp[k+1])` in the (lon, lat) plane and take
the candidate when its haversine distance beats the best so far. -/
def snapSegStep (geo : GeoModel) (lat lon : ℚ) (ei : ℕ) (e : Edge)
    (tmp : List (ℚ × ℚ)) (st : EdgeSnap × Bool) (k : ℕ) : EdgeSnap × Bool :=
  let a := tmp.getD k (0, 0)
  let b := tmp.getD (k + 1) (0, 0)
  let pr := projectPointToSegment a.2 a.1 b.2 b.1 lon lat
  let d := geo.haversine lat lon pr.2.1 pr.1
  if infLt (some d) st.1.dist_m then
    (⟨ei, (e.from_node : ℤ), (e.to_node : ℤ), (k : ℤ), pr.2.2, pr.2.1, pr.1, some d⟩, true)
  else st

/-- Outer edge loop body of `snapToEdge` (`router.cpp` lines 79-111):
profile access and speed gate, shape collection, then the segment loop. -/
def snapEdgeStep (geo : GeoModel) (tl : LandTile) (lat lon : ℚ) (profile : Profile)
    (st : EdgeSnap × Bool) (ei : ℕ) : EdgeSnap × Bool :=
  let e := edgeAt tl ei
  let sp := snapSpeed profile e
  let allowed := snapAllowed profile e
  if ¬allowed ∨ sp ≤ 0 then st
  else
    let tmp := appendEdgeShape tl ei [] false
    if tmp.length < 2 then st
    else (List.range (tmp.length - 1)).foldl (snapSegStep geo lat lon ei e tmp) st

/-- The `if (!has) return std::nullopt; return best;` tail of `snapToEdge`. -/
def snapResult (r : EdgeSnap × Bool) : Option EdgeSnap :=
  if r.2 = false then none else some r.1

/-- `Router::Impl::snapToEdge` (`router.cpp` lines 71-114): scans all edges
passing the profile access and speed checks, projects the query point onto
every polyline segment in the (lon, lat) plane, and keeps the candidate of
smallest haversine distance (`best`/`has` exactly as in the source). -/
def snapToEdge (geo : GeoModel) (tl : LandTile) (lat lon : ℚ) (profile : Profile) :
    Option EdgeSnap :=
  if edgeCount tl = 0 then none
  else snapResult
    ((List.range (edgeCount tl)).foldl (snapEdgeStep geo tl lat lon profile)
      (default, false))

/-- `Router::Impl::edgeAllowed` (`router.cpp` lines 117-125). -/
def edgeAllowed (e : Edge) (profile : Profile) (fromNode : ℤ) : Bool :=
  let carOk := profile = .Car ∧ e.access_mask &&& 1 ≠ 0
  let footOk := profile = .Foot ∧ e.access_mask &&& 2 ≠ 0
  if ¬carOk ∧ ¬footOk then false
  else if e.oneway ∧ fromNode ≠ (e.from_node : ℤ) then false
  else true

/-- `Router::Impl::edgeTraversalTimeSec` (`router.cpp` lines 127-131);
`none` models the `infinity` returned for non-positive speed. -/
def edgeTraversalTimeSec (e : Edge) (profile : Profile) : Option ℚ :=
  let speed := if profile = .Car then e.speed_mps else e.foot_speed_mps
  if speed ≤ 0 then none else some (e.length_m / speed)

/-! ## Multi-tile global graph (`router.cpp` lines 481-555) -/

/-- `Router::Impl::GlobalEdge` (`router.cpp` line 482); the `uint8 isVirt`
flag (0/1 in the source) is a `Bool`; the source field `to` is a Lean
keyword and is spelled `toV`. -/
structure GlobalEdge where
  toV : ℕ := 0
  w : ℚ := 0
  isVirt : Bool := false
  tileX : ℕ := 0
  tileY : ℕ := 0
  edgeIdx : ℕ := 0
deriving DecidableEq, Repr, Inhabited

/-- `Router::Impl::GlobalNode` (`router.cpp` line 483). -/
structure GlobalNode where
  lat : ℚ := 0
  lon : ℚ := 0
deriving DecidableEq, Repr, Inhabited

/-- Cast of a C `int` to `uint32_t` (two's complement wraparound). -/
def u32ofInt (z : ℤ) : ℕ := (z % 4294967296).toNat

/-- Quantized-coordinate fusion key
(`(uint64)(uint32)lat_q << 32 ^ (uint64)(uint32)lon_q`,
`router.cpp` line 516 and the inlined copies at lines 647-650, 677-700). -/
def qkeyOf (lat_q lon_q : ℤ) : ℕ := (u32ofInt lat_q <<< 32) ^^^ u32ofInt lon_q

/-- Association-list lookup modelling `std::unordered_map::find`. -/
def lookupAssoc : List (ℕ × ℕ) → ℕ → Option ℕ
  | [], _ => none
  | e :: rest, k => if e.1 = k then some e.2 else lookupAssoc rest k

/-- Read access `q2node[key]` (`std::unordered_map::operator[]`
default-inserts `int{} = 0` for an absent key, so a read yields 0). -/
def q2nodeGet (m : List (ℕ × ℕ)) (key : ℕ) : ℕ := (lookupAssoc m key).getD 0

/-- State built by `Router::Impl::buildGlobalGraph`: node table, forward
adjacency, reverse adjacency, and the quantized-key map. -/
structure GGState where
  nodes : Array GlobalNode := #[]
  adj : Array (Array GlobalEdge) := #[]
  revAdj : Array (Array (ℕ × ℕ)) := #[]
  q2node : List (ℕ × ℕ) := []
deriving Repr

/-- Push onto a nested array cell (`vec[i].push_back(x)`). -/
def pushAt {α : Type} (a : Array (Array α)) (i : ℕ) (x : α) : Array (Array α) :=
  a.setD i ((a.getD i #[]).push x)

/-- The `nodeIdFor` lambda (`router.cpp` lines 515-525): existing id on a
key hit, else a fresh id with empty adjacency rows. -/
def nodeIdFor (st : GGState) (lat_q lon_q : ℤ) (lat lon : ℚ) : ℕ × GGState :=
  let key := qkeyOf lat_q lon_q
  match lookupAssoc st.q2node key with
  | some id => (id, st)
  | none =>
    let id := st.nodes.size
    (id, { st with
           nodes := st.nodes.push ⟨lat, lon⟩,
           adj := st.adj.push (#[]),
           revAdj := st.revAdj.push (#[]),
           q2node := (key, id) :: st.q2node })

/-- Per-tile node registration (`router.cpp` lines 531-534): the
`local2global` table. -/
def addTileNodes (view : LandTile) (st : GGState) : Array ℕ × GGState :=
  (List.range (nodeCount view)).foldl (fun acc i =>
    let r := nodeIdFor acc.2 (nodeLatQ view i) (nodeLonQ view i) (nodeLat view i)
      (nodeLon view i)
    (acc.1.push r.1, r.2)) (#[], st)

/-- Per-tile edge registration (`router.cpp` lines 536-553): forward global
edge with reverse-adjacency back-pointer, and the opposite edge when the
edge is not oneway and the reverse direction passes the access check. -/
def addTileEdges (profile : Profile) (tref : TileKey) (view : LandTile)
    (l2g : Array ℕ) (st0 : GGState) : GGState :=
  (List.range (edgeCount view)).foldl (fun st ei =>
    let e := edgeAt view ei
    if ¬ edgeAllowed e profile (e.from_node : ℤ) then st
    else match edgeTraversalTimeSec e profile with
      | none => st
      | some w =>
        let u := l2g.getD e.from_node 0
        let v := l2g.getD e.to_node 0
        let idx := (st.adj.getD u #[]).size
        let st1 : GGState := { st with
          adj := pushAt st.adj u ⟨v, w, false, u32ofInt tref.x, u32ofInt tref.y, ei⟩,
          revAdj := pushAt st.revAdj v (u, idx) }
        if ¬ e.oneway then
          if edgeAllowed e profile (e.to_node : ℤ) then
            let idx2 := (st1.adj.getD v #[]).size
            { st1 with
              adj := pushAt st1.adj v ⟨u, w, false, u32ofInt tref.x, u32ofInt tref.y, ei⟩,
              revAdj := pushAt st1.revAdj u (v, idx2) }
          else st1
        else st1) st0

/-- `Router::Impl::buildGlobalGraph` (`router.cpp` lines 507-555). -/
def buildGlobalGraph (profile : Profile) (tiles : List (TileKey × LandTile)) : GGState :=
  tiles.foldl (fun st tv =>
    let r := addTileNodes tv.2 st
    addTileEdges profile tv.1 tv.2 r.1 r.2) {}

/-! ## Bidirectional A* over the global graph (`router.cpp` lines 557-595) -/

/-- Search label (`struct L`, `router.cpp` line 563); `g = none` models the
`infinity` initializer. -/
structure ALabel where
  g : Option ℚ := none
  prev : ℤ := -1
  prevEdge : ℤ := -1
deriving DecidableEq, Repr, Inhabited

/-- Priority-queue element (`struct Q`, `router.cpp` line 564). -/
structure QElem where
  v : ℕ
  f : Option ℚ
deriving DecidableEq, Repr, Inhabited

/-- Removal of the first occurrence of an element. -/
def eraseFirstQ : List QElem → QElem → List QElem
  | [], _ => []
  | x :: rest, y => if x = y then rest else x :: eraseFirstQ rest y

/-- Pop of the minimum-f element, earliest pushed among equals.  The C++
`std::priority_queue` with comparator `a.f > b.f` pops a minimal-f element;
its order among equal keys is unspecified, and no claim below depends on a
tie. -/
def popMinQ (q : List QElem) : Option (QElem × List QElem) :=
  match q with
  | [] => none
  | x :: rest =>
    let m := rest.foldl (fun b n => if infLt n.f b.f then n else b) x
    some (m, eraseFirstQ q m)

/-- The `hF`/`hB` heuristic lambdas of `astarGlobalBi` (`router.cpp` lines
567-568): haversine from `v` to the target node divided by the literal
`13.9` — for both profiles (the function takes no profile argument). -/
def astarHeuristic (geo : GeoModel) (nodes : Array GlobalNode) (tgt v : ℕ) : ℚ :=
  geo.haversine (nodes.getD v default).lat (nodes.getD v default).lon
    (nodes.getD tgt default).lat (nodes.getD tgt default).lon / (139 / 10)

/-- Mutable state of the bidirectional search loop. -/
structure BiState where
  F : Array ALabel
  B : Array ALabel
  pqF : List QElem
  pqB : List QElem
  bestMu : Option ℚ
  meet : ℤ
deriving Repr

/-- Forward relaxation over `adj[u]` (`router.cpp` line 575). -/
def relaxForwardBi (geo : GeoModel) (nodes : Array GlobalNode)
    (adj : Array (Array GlobalEdge)) (t u : ℕ) (st0 : BiState) : BiState :=
  (List.range (adj.getD u #[]).size).foldl (fun st i =>
    let e := (adj.getD u #[]).getD i default
    let cand := infAdd ((st.F.getD u default).g) (some e.w)
    if infLt cand (st.F.getD e.toV default).g then
      let st1 : BiState := { st with
        F := st.F.setD e.toV ⟨cand, (u : ℤ), (i : ℤ)⟩,
        pqF := st.pqF ++ [⟨e.toV, infAdd cand (some (astarHeuristic geo nodes t e.toV))⟩] }
      if (st1.B.getD e.toV default).g.isSome then
        let mu := infAdd cand (st1.B.getD e.toV default).g
        if infLt mu st1.bestMu then { st1 with bestMu := mu, meet := (e.toV : ℤ) } else st1
      else st1
    else st) st0

/-- Backward relaxation over `revAdj[u]` (`router.cpp` line 580).  When
`u ≥ revAdj.size` the source indexes the vector out of bounds (undefined
behaviour — `route` grows `nodes`/`adj` for the two virtual nodes but never
`revAdj`); the model takes the benign reading `no incoming entries`. -/
def relaxBackwardBi (geo : GeoModel) (nodes : Array GlobalNode)
    (adj : Array (Array GlobalEdge)) (revAdj : Array (Array (ℕ × ℕ)))
    (s u : ℕ) (st0 : BiState) : BiState :=
  (revAdj.getD u #[]).toList.foldl (fun st re =>
    let e := (adj.getD re.1 #[]).getD re.2 default
    let cand := infAdd ((st.B.getD u default).g) (some e.w)
    if infLt cand (st.B.getD re.1 default).g then
      let st1 : BiState := { st with
        B := st.B.setD re.1 ⟨cand, (u : ℤ), (re.2 : ℤ)⟩,
        pqB := st.pqB ++ [⟨re.1, infAdd cand (some (astarHeuristic geo nodes s re.1))⟩] }
      if (st1.F.getD re.1 default).g.isSome then
        let mu := infAdd cand (st1.F.getD re.1 default).g
        if infLt mu st1.bestMu then { st1 with bestMu := mu, meet := (re.1 : ℤ) } else st1
      else st1
    else st) st0

/-- Forward half of one loop iteration (`router.cpp` lines 572-576); the
second component is true when the `break` fires. -/
def biStepF (geo : GeoModel) (nodes : Array GlobalNode)
    (adj : Array (Array GlobalEdge)) (t : ℕ) (st : BiState) : BiState × Bool :=
  match popMinQ st.pqF with
  | none => (st, false)
  | some (q, rest) =>
    let st1 : BiState := { st with pqF := rest }
    if infLt st1.bestMu
        (infAdd ((st1.F.getD q.v default).g) (some (astarHeuristic geo nodes t q.v))) then
      (st1, true)
    else (relaxForwardBi geo nodes adj t q.v st1, false)

/-- Backward half of one loop iteration (`router.cpp` lines 577-581). -/
def biStepB (geo : GeoModel) (nodes : Array GlobalNode)
    (adj : Array (Array GlobalEdge)) (revAdj : Array (Array (ℕ × ℕ)))
    (s : ℕ) (st : BiState) : BiState × Bool :=
  match popMinQ st.pqB with
  | none => (st, false)
  | some (q, rest) =>
    let st1 : BiState := { st with pqB := rest }
    if infLt st1.bestMu
        (infAdd ((st1.B.getD q.v default).g) (some (astarHeuristic geo nodes s q.v))) then
      (st1, true)
    else (relaxBackwardBi geo nodes adj revAdj s q.v st1, false)

/-- The `while(!pqF.empty() || !pqB.empty())` loop (`router.cpp` lines
571-582), driven by explicit fuel; the loop of the source terminates after
finitely many relaxations, and every theorem below either quantifies over
the fuel or runs a concrete instance whose queues demonstrably empty. -/
def biLoop (geo : GeoModel) (nodes : Array GlobalNode)
    (adj : Array (Array GlobalEdge)) (revAdj : Array (Array (ℕ × ℕ)))
    (s t : ℕ) : ℕ → BiState → BiState
  | 0, st => st
  | fuel + 1, st =>
    if st.pqF.isEmpty ∧ st.pqB.isEmpty then st
    else
      let r1 := biStepF geo nodes adj t st
      if r1.2 then r1.1
      else
        let r2 := biStepB geo nodes adj revAdj s r1.1
        if r2.2 then r2.1
        else biLoop geo nodes adj revAdj s t fuel r2.1

/-- Forward path reconstruction (`router.cpp` line 586): walks
`F[v].prev` from `meet` to `s`, producing the reversed sequence directly
(matching the `std::reverse` of the source); fuel bounds the walk, which
in the source ends at `s` for every label chain the search builds. -/
def reconWalkF (F : Array ALabel) (s : ℤ) : ℕ → ℤ → List (ℤ × ℤ) → List (ℤ × ℤ)
  | 0, _, acc => acc
  | fuel + 1, v, acc =>
    if v = s then acc
    else
      let lab := F.getD v.toNat default
      reconWalkF F s fuel lab.prev ((lab.prev, lab.prevEdge) :: acc)

/-- Backward path reconstruction (`router.cpp` line 588): walks `B[v].prev`
from `meet` to `t`, appending `(v, B[v].prevEdge)` in walk order. -/
def reconWalkB (B : Array ALabel) (t : ℤ) : ℕ → ℤ → List (ℤ × ℤ)
  | 0, _ => []
  | fuel + 1, v =>
    if v = t then []
    else
      let lab := B.getD v.toNat default
      (v, lab.prevEdge) :: reconWalkB B t fuel lab.prev

/-- Edge-id emission (`router.cpp` lines 590-591): skips negative edge
positions, packs `(tileZoom, ge.tileX, ge.tileY, ge.edgeIdx)` for every
remaining sequence entry — including virtual edges, whose stored tile
coordinates and edge index are all zero — and suppresses consecutive
duplicates (`lastE`, modelled as `Option`). -/
def collectEdgeIds (tileZoom : ℕ) (adj : Array (Array GlobalEdge))
    (seq : List (ℤ × ℤ)) : List ℕ :=
  (seq.foldl (fun (acc : List ℕ × Option ℕ) p =>
    if p.2 < 0 then acc
    else
      let ge := (adj.getD p.1.toNat #[]).getD p.2.toNat default
      let id := edgeid.make tileZoom ge.tileX ge.tileY ge.edgeIdx
      if acc.2 = some id then acc else (acc.1 ++ [id], some id)) ([], none)).1

/-- `Router::Impl::astarGlobalBi` (`router.cpp` lines 558-595): returns
`none` for `false` (no meet) and the `usedEdgeIds` output for `true`.
The `meetPath` output parameter is filled by the source but never read by
`route` and is not modelled. -/
def astarGlobalBi (geo : GeoModel) (tileZoom : ℕ) (fuel : ℕ)
    (nodes : Array GlobalNode) (adj : Array (Array GlobalEdge))
    (revAdj : Array (Array (ℕ × ℕ))) (s t : ℕ) : Option (List ℕ) :=
  let F0 := (Array.mkArray nodes.size (default : ALabel)).setD s ⟨some 0, -1, -1⟩
  let B0 := (Array.mkArray nodes.size (default : ALabel)).setD t ⟨some 0, -1, -1⟩
  let st0 : BiState :=
    ⟨F0, B0, [⟨s, some (astarHeuristic geo nodes t s)⟩],
      [⟨t, some (astarHeuristic geo nodes s t)⟩], none, -1⟩
  let st := biLoop geo nodes adj revAdj s t fuel st0
  if st.meet < 0 then none
  else
    let seq := reconWalkF st.F (s : ℤ) (nodes.size + 1) st.meet [] ++
      reconWalkB st.B (t : ℤ) (nodes.size + 1) st.meet
    some (collectEdgeIds tileZoom adj seq)

/-! ## `Router::route` (`router.cpp` lines 604-732)

The tile store is passed as `store : TileKey → Option LandTile`: the
sqlite row fetch plus the flatbuffers view over the blob bytes (the LRU
cache of §tile-store is behaviourally transparent to `route` and is
verified separately).  `TileView::valid()` is true for every parsed tile
the model can represent. -/

/-- The `bestSnap` lambda (`router.cpp` lines 636-639): best snap across
all loaded tiles with its tile index (−1 when none); `bestD` starts at
`infinity` (`none`). -/
def bestSnapOver (geo : GeoModel) (tiles : List (TileKey × LandTile)) (c : Coord)
    (profile : Profile) : Option EdgeSnap × ℤ :=
  let r := (List.range tiles.length).foldl
    (fun (acc : Option EdgeSnap × Option ℚ × ℤ) i =>
      match snapToEdge geo (tiles.getD i default).2 c.lat c.lon profile with
      | none => acc
      | some s => if infLt s.dist_m acc.2.1 then (some s, s.dist_m, (i : ℤ)) else acc)
    (none, none, -1)
  (r.1, r.2.2)

/-- The `addVS` lambda (`router.cpp` lines 666-691): half-edges joining the
start virtual node `vS` to the host edge's endpoints, respecting `oneway`.
Virtual global edges carry `isVirt = 1` and zeroed tile coordinates and
edge index, exactly as in the source. -/
def addVS (profile : Profile) (q2node : List (ℕ × ℕ)) (view : LandTile)
    (snap : EdgeSnap) (sNode vS : ℕ) (adj0 : Array (Array GlobalEdge)) :
    Array (Array GlobalEdge) :=
  let e := edgeAt view snap.edgeIdx
  let speed := if profile = .Car then e.speed_mps else e.foot_speed_mps
  if speed ≤ 0 then adj0
  else
    let w := e.length_m / speed
    let t := max 0 (min snap.t 1)
    let adj1 :=
      if ¬ e.oneway then pushAt adj0 sNode ⟨vS, t * w, true, 0, 0, 0⟩
      else
        let kFrom := qkeyOf (nodeLatQ view snap.fromNode.toNat)
          (nodeLonQ view snap.fromNode.toNat)
        if q2nodeGet q2node kFrom = sNode then
          pushAt adj0 sNode ⟨vS, t * w, true, 0, 0, 0⟩
        else adj0
    let kTo := qkeyOf (nodeLatQ view snap.toNode.toNat) (nodeLonQ view snap.toNode.toNat)
    let adj2 := pushAt adj1 vS ⟨q2nodeGet q2node kTo, (1 - t) * w, true, 0, 0, 0⟩
    if ¬ e.oneway then
      let kFrom2 := qkeyOf (nodeLatQ view snap.fromNode.toNat)
        (nodeLonQ view snap.fromNode.toNat)
      pushAt adj2 vS ⟨q2nodeGet q2node kFrom2, t * w, true, 0, 0, 0⟩
    else adj2

/-- The `addVE` lambda (`router.cpp` lines 693-709). -/
def addVE (profile : Profile) (q2node : List (ℕ × ℕ)) (view : LandTile)
    (snap : EdgeSnap) (vE : ℕ) (adj0 : Array (Array GlobalEdge)) :
    Array (Array GlobalEdge) :=
  let e := edgeAt view snap.edgeIdx
  let speed := if profile = .Car then e.speed_mps else e.foot_speed_mps
  if speed ≤ 0 then adj0
  else
    let w := e.length_m / speed
    let t := max 0 (min snap.t 1)
    let kFrom := qkeyOf (nodeLatQ view snap.fromNode.toNat)
      (nodeLonQ view snap.fromNode.toNat)
    let adj1 := pushAt adj0 (q2nodeGet q2node kFrom) ⟨vE, t * w, true, 0, 0, 0⟩
    if ¬ e.oneway then
      let kTo := qkeyOf (nodeLatQ view snap.toNode.toNat) (nodeLonQ view snap.toNode.toNat)
      pushAt adj1 (q2nodeGet q2node kTo) ⟨vE, (1 - t) * w, true, 0, 0, 0⟩
    else adj1

/-- The `appendPoint` lambda of the multi-tile assembly (`router.cpp` line
718): accumulates the haversine leg into `distance_m` and always pushes
the point (no duplicate suppression in this code path). -/
def appendPointR (geo : GeoModel) (acc : List Coord × ℚ) (p : ℚ × ℚ) :
    List Coord × ℚ :=
  match acc.1.getLast? with
  | none => (acc.1 ++ [⟨p.1, p.2⟩], acc.2)
  | some L => (acc.1 ++ [⟨p.1, p.2⟩], acc.2 + geo.haversine L.lat L.lon p.1 p.2)

/-- Polyline and metric assembly over the returned edge ids (`router.cpp`
lines 716-729): parse each id, look the tile up by `(x, y)` among the
loaded tiles (ids whose tile is not loaded are skipped —
`if (!vptr) continue`), append the edge shape with `skipFirst` when the
polyline is already non-empty, and add the edge's traversal time. -/
def assembleFromEdgeIds (geo : GeoModel) (profile : Profile)
    (tiles : List (TileKey × LandTile)) (eids : List ℕ) :
    List Coord × ℚ × Option ℚ :=
  eids.foldl (fun (acc : List Coord × ℚ × Option ℚ) id =>
    let pr := edgeid.parse id
    match tiles.find? (fun tv => tv.1.x = (pr.2.1 : ℤ) ∧ tv.1.y = (pr.2.2.1 : ℤ)) with
    | none => acc
    | some tv =>
      let pts := appendEdgeShape tv.2 pr.2.2.2 [] (!acc.1.isEmpty)
      let pd := pts.foldl (appendPointR geo) (acc.1, acc.2.1)
      (pd.1, pd.2, infAdd acc.2.2 (edgeTraversalTimeSec (edgeAt tv.2 pr.2.2.2) profile)))
    ([], 0, some 0)

/-- Dynamic frame width (`router.cpp` lines 613-619):
`clamp(ceil(dist_km / 4) + 1, 1, 8)` from the straight-line haversine
distance of the endpoints. -/
def dynFrame (geo : GeoModel) (a b : Coord) : ℤ :=
  let dist_m_straight := geo.haversine a.lat a.lon b.lat b.lon
  let dist_km := dist_m_straight / 1000
  let dyn0 : ℤ := Int.ceil (dist_km / 4) + 1
  let dyn1 := if dyn0 < 1 then 1 else dyn0
  if dyn1 > 8 then 8 else dyn1

/-- Body of `Router::route` after the waypoint-count guard (`router.cpp`
lines 612-731); `a`/`b` stand for `waypoints.front()`/`waypoints.back()`,
the only waypoints the body reads.  The second component is the list of
keys requested from the tile store. -/
def routeMain (geo : GeoModel) (fuel : ℕ) (store : TileKey → Option LandTile)
    (tileZoom : ℕ) (profile : Profile) (a b : Coord) : RouteResult × List TileKey :=
  let trefs := collectTileRange geo tileZoom a b (dynFrame geo a b)
  let tiles := trefs.filterMap (fun tr =>
    match store tr with
    | none => none
    | some v => if edgeCount v = 0 ∨ nodeCount v < 2 then none else some (tr, v))
  if tiles = [] then
    ({ status := .NO_TILE, error_message := "no tiles in range" }, trefs)
  else
    let gg := buildGlobalGraph profile tiles
    let sres := bestSnapOver geo tiles a profile
    let tres := bestSnapOver geo tiles b profile
    match sres.1, tres.1 with
    | none, _ =>
      ({ status := .NO_ROUTE, error_message := "failed to snap (multi-tile)" }, trefs)
    | some _, none =>
      ({ status := .NO_ROUTE, error_message := "failed to snap (multi-tile)" }, trefs)
    | some sSnap, some tSnap =>
      let sView := (tiles.getD sres.2.toNat default).2
      let tView := (tiles.getD tres.2.toNat default).2
      let sFrom := q2nodeGet gg.q2node
        (qkeyOf (nodeLatQ sView sSnap.fromNode.toNat) (nodeLonQ sView sSnap.fromNode.toNat))
      let sTo := q2nodeGet gg.q2node
        (qkeyOf (nodeLatQ sView sSnap.toNode.toNat) (nodeLonQ sView sSnap.toNode.toNat))
      let tFrom := q2nodeGet gg.q2node
        (qkeyOf (nodeLatQ tView tSnap.fromNode.toNat) (nodeLonQ tView tSnap.fromNode.toNat))
      let tTo := q2nodeGet gg.q2node
        (qkeyOf (nodeLatQ tView tSnap.toNode.toNat) (nodeLonQ tView tSnap.toNode.toNat))
      let pick := fun (x y : ℕ) (c : Coord) =>
        let da := geo.haversine (gg.nodes.getD x default).lat
          (gg.nodes.getD x default).lon c.lat c.lon
        let db := geo.haversine (gg.nodes.getD y default).lat
          (gg.nodes.getD y default).lon c.lat c.lon
        if da ≤ db then x else y
      let sNode := pick sFrom sTo a
      let tNode := pick tFrom tTo b
      let vS := gg.nodes.size
      let nodes1 := gg.nodes.push ⟨sSnap.projLat, sSnap.projLon⟩
      let adj1 := gg.adj.push (#[])
      let vE := nodes1.size
      let nodes2 := nodes1.push ⟨tSnap.projLat, tSnap.projLon⟩
      let adj2 := adj1.push (#[])
      let adj3 := addVS profile gg.q2node sView sSnap sNode vS adj2
      let adj4 := addVE profile gg.q2node tView tSnap vE adj3
      match astarGlobalBi geo tileZoom fuel nodes2 adj4 gg.revAdj vS vE with
      | none => ({ status := .NO_ROUTE, error_message := "no path in multi-tile" }, trefs)
      | some eids =>
        let asm := assembleFromEdgeIds geo profile tiles eids
        ({ status := .OK, polyline := asm.1, distance_m := asm.2.1,
           duration_s := asm.2.2, edge_ids := eids, error_message := "" }, trefs)

/-- `Router::route` (`router.cpp` lines 604-732): the waypoint-count guard,
then the multi-tile pipeline.  The body reads the waypoint list only
through `waypoints.front()` and `waypoints.back()` (lines 613, 620,
641-642, 654-655); they are extracted once here and passed on.  The trace
component records every tile-store load the call performs; for the early
INTERNAL_ERROR return the store is untouched. -/
def route (geo : GeoModel) (fuel : ℕ) (store : TileKey → Option LandTile)
    (tileZoom : ℕ) (profile : Profile) (waypoints : List Coord) :
    RouteResult × List TileKey :=
  if waypoints.length < 2 then
    ({ status := .INTERNAL_ERROR, error_message := "need at least 2 waypoints" }, [])
  else routeMain geo fuel store tileZoom profile waypoints.head! waypoints.getLast!

/-! ## Spec-side definitions for the refinement comparisons -/

/-- The `speedHeur` constant of `routeSingleTile` (`router.cpp` line 267):
profile-dependent heuristic speed of the single-tile search, which
`route()` never invokes.  Embedded for the C2 comparison. -/
def routeSingleTileSpeedHeur (profile : Profile) : ℚ :=
  if profile = .Car then 139 / 10 else 14 / 10

/-- Heuristic speed as the spec states it (spec §4.5.4: `h_speed = 13.9`
for car, `1.4` for foot); definition follows the spec's words, for the C2
refinement comparison. -/
def specHSpeed (profile : Profile) : ℚ :=
  if profile = .Car then 139 / 10 else 14 / 10

/-- Heuristic as claim C2 states it: `haversine(u, target) / h_speed` with
profile-dependent `h_speed` (definition follows the spec's words). -/
def specHeuristic (geo : GeoModel) (profile : Profile) (nodes : Array GlobalNode)
    (tgt v : ℕ) : ℚ :=
  geo.haversine (nodes.getD v default).lat (nodes.getD v default).lon
    (nodes.getD tgt default).lat (nodes.getD tgt default).lon / specHSpeed profile

/-- Explicit shape-slice points of an edge
(`shapes[shape_start + k]` for `k < shape_count`, scaled by 1e-6). -/
def shapeSlicePoints (t : LandTile) (edgeIdx : ℕ) : List (ℚ × ℚ) :=
  let e := edgeAt t edgeIdx
  (List.range e.shape_count).map (fun k =>
    let sp := shapeAt t (e.shape_start + k)
    ((sp.lat_q : ℚ) / 1000000, (sp.lon_q : ℚ) / 1000000))

/-- Points decoded from an encoded polyline into an empty buffer. -/
def decodedPoints (s : List ℕ) : List (ℚ × ℚ) := decodeEncodedPolyline s [] false

/-- The two endpoint node coordinates of an edge. -/
def endpointPoints (t : LandTile) (edgeIdx : ℕ) : List (ℚ × ℚ) :=
  let e := edgeAt t edgeIdx
  [(nodeLat t e.from_node, nodeLon t e.from_node),
   (nodeLat t e.to_node, nodeLon t e.to_node)]

/-- Resolved polyline source of claim C5, per the spec's resolution order
(definition follows the spec's words): explicit shape slice when
`shape_count > 0`, else the decoded `encoded_polyline` when present, else
the two endpoint node coordinates. -/
def specResolvedShape (t : LandTile) (edgeIdx : ℕ) : List (ℚ × ℚ) :=
  let e := edgeAt t edgeIdx
  if 0 < e.shape_count then shapeSlicePoints t edgeIdx
  else
    match e.encoded_polyline with
    | some s => decodedPoints s
    | none => endpointPoints t edgeIdx

/-! ## Concrete instances for executable runs -/

/-- Computable surrogate geodesy for concrete runs: L1 distance and a
constant Mercator row.  The development is parametric in `GeoModel`; all
orderings the concrete runs below depend on (distances along a single
parallel, compared by `|Δlon|`) agree with the real haversine, which is
strictly monotone in `|Δlon|` at fixed latitude. -/
def geoL1 : GeoModel :=
  { haversine := fun lat1 lon1 lat2 lon2 => |lat1 - lat2| + |lon1 - lon2|,
    webY := fun _ _ => 1 }

/-- Degenerate geodesy for trivial witnesses. -/
def geo0 : GeoModel := { haversine := fun _ _ _ _ => 0, webY := fun _ _ => 0 }

/-- Empty tile store. -/
def store0 : TileKey → Option LandTile := fun _ => none

/-- Two-node, one-edge tile served at web key `(1, 1, 1)`: nodes on the
equator at longitudes 90 and 90.000004, one non-oneway car-only edge of
length 1 m, car speed 1 m/s, no shape data. -/
def tileA : LandTile :=
  { nodes := [⟨0, 90000000, 0, 1⟩, ⟨0, 90000004, 1, 0⟩],
    edges := [{ from_node := 0, to_node := 1, length_m := 1, speed_mps := 1,
                foot_speed_mps := 0, oneway := false, access_mask := 1,
                shape_start := 0, shape_count := 0, encoded_polyline := none }],
    shapes := none }

/-- Store holding exactly `tileA` at `(1, 1, 1)`. -/
def storeA : TileKey → Option LandTile :=
  fun k => if k = ⟨1, 1, 1⟩ then some tileA else none

/-- Query endpoint projecting onto `tileA`'s edge at `t = 1/4`. -/
def coordA1 : Coord := ⟨0, 90000001 / 1000000⟩

/-- Query endpoint projecting onto `tileA`'s edge at `t = 3/4`. -/
def coordA2 : Coord := ⟨0, 90000003 / 1000000⟩

/-- Midpoint used as an intermediate waypoint in the C1 witness. -/
def coordA3 : Coord := ⟨0, 90000002 / 1000000⟩

/-- Global node pair whose surrogate haversine distance is exactly 13.9. -/
def nodesC2 : Array GlobalNode := #[⟨0, 0⟩, ⟨0, 139 / 10⟩]

/-- The snap of `coordA1` onto `tileA`'s edge (computed value). -/
def sA : EdgeSnap :=
  { edgeIdx := 0, fromNode := 0, toNode := 1, segIndex := 0, t := 1 / 4,
    projLat := 0, projLon := 90000001 / 1000000, dist_m := some 0 }

/-- Backing table holding one one-byte blob at `(0,0,0)`. -/
def dbW : TileDb := fun k => if k = ⟨0, 0, 0⟩ then some (some [1]) else none

/-- Backing table holding a zero-length blob at `(0,0,0)` and nothing else. -/
def dbEmptyBlob : TileDb := fun k => if k = ⟨0, 0, 0⟩ then some (some []) else none

/-- Invariant carried through the `snapToEdge` fold in the C9 proof. -/
def snapInv (tl : LandTile) (profile : Profile) (st : EdgeSnap × Bool) : Prop :=
  st.2 = true →
    0 ≤ st.1.t ∧ st.1.t ≤ 1 ∧ st.1.dist_m.isSome ∧ 0 ≤ st.1.segIndex ∧
      snapAllowed profile (edgeAt tl st.1.edgeIdx) = true ∧
      0 < snapSpeed profile (edgeAt tl st.1.edgeIdx)

/-! ## Helper lemmas -/

/-- Helper: OR of a shifted value with a small value is addition. -/
theorem lor_shiftLeft_eq_add {a b k : ℕ} (hb : b < 2 ^ k) :
    (a <<< k) ||| b = a <<< k + b := by
  rw [Nat.shiftLeft_eq, Nat.mul_comm, ← Nat.mul_add_lt_is_or hb, Nat.mul_comm]

/-- `edgeid.make` written as plain base-2 arithmetic (fields are disjoint). -/
theorem edgeid_make_arith (z x y e : ℕ) :
    edgeid.make z x y e =
      (z % 2 ^ 8) * 2 ^ 56 + (x % 2 ^ 20) * 2 ^ 36 + (y % 2 ^ 20) * 2 ^ 16 + e % 2 ^ 16 := by
  unfold edgeid.make
  have hz : z &&& 0xFF = z % 2 ^ 8 := Nat.and_pow_two_sub_one_eq_mod z 8
  have hx : x &&& 0xFFFFF = x % 2 ^ 20 := Nat.and_pow_two_sub_one_eq_mod x 20
  have hy : y &&& 0xFFFFF = y % 2 ^ 20 := Nat.and_pow_two_sub_one_eq_mod y 20
  have he : e &&& 0xFFFF = e % 2 ^ 16 := Nat.and_pow_two_sub_one_eq_mod e 16
  rw [hz, hx, hy, he, Nat.or_assoc, Nat.or_assoc]
  have h1 : ((y % 2 ^ 20) <<< 16) ||| (e % 2 ^ 16) = (y % 2 ^ 20) <<< 16 + e % 2 ^ 16 :=
    lor_shiftLeft_eq_add (Nat.mod_lt _ (by norm_num))
  have hlt1 : (y % 2 ^ 20) <<< 16 + e % 2 ^ 16 < 2 ^ 36 := by
    rw [Nat.shiftLeft_eq]
    have := Nat.mod_lt y (show 0 < 2 ^ 20 by norm_num)
    have := Nat.mod_lt e (show 0 < 2 ^ 16 by norm_num)
    nlinarith
  have h2 : ((x % 2 ^ 20) <<< 36) ||| ((y % 2 ^ 20) <<< 16 + e % 2 ^ 16) =
      (x % 2 ^ 20) <<< 36 + ((y % 2 ^ 20) <<< 16 + e % 2 ^ 16) :=
    lor_shiftLeft_eq_add hlt1
  have hlt2 : (x % 2 ^ 20) <<< 36 + ((y % 2 ^ 20) <<< 16 + e % 2 ^ 16) < 2 ^ 56 := by
    rw [Nat.shiftLeft_eq]
    have := Nat.mod_lt x (show 0 < 2 ^ 20 by norm_num)
    nlinarith
  have h3 : ((z % 2 ^ 8) <<< 56) ||| ((x % 2 ^ 20) <<< 36 + ((y % 2 ^ 20) <<< 16 + e % 2 ^ 16)) =
      (z % 2 ^ 8) <<< 56 + ((x % 2 ^ 20) <<< 36 + ((y % 2 ^ 20) <<< 16 + e % 2 ^ 16)) :=
    lor_shiftLeft_eq_add hlt2
  rw [h1, h2, h3, Nat.shiftLeft_eq, Nat.shiftLeft_eq, Nat.shiftLeft_eq]
  ring

/-- C7.  For every `z < 2^8`, `x < 2^20`, `y < 2^20`, `edge_index < 2^16`,
parsing the EdgeId produced by packing `(z, x, y, edge_index)` into the bit
fields `[z:8][x:20][y:20][edge_index:16]` returns exactly the original
tuple: `edgeid.parse (edgeid.make z x y e) = (z, x, y, e)`. -/
theorem edgeid_parse_make_roundtrip (z x y e : ℕ)
    (hz : z < 2 ^ 8) (hx : x < 2 ^ 20) (hy : y < 2 ^ 20) (he : e < 2 ^ 16) :
    edgeid.parse (edgeid.make z x y e) = (z, x, y, e) := by
  have harith := edgeid_make_arith z x y e
  rw [Nat.mod_eq_of_lt hz, Nat.mod_eq_of_lt hx, Nat.mod_eq_of_lt hy, Nat.mod_eq_of_lt he] at harith
  unfold edgeid.parse
  rw [harith]
  have e1 : (z * 2 ^ 56 + x * 2 ^ 36 + y * 2 ^ 16 + e) >>> 56 &&& 0xFF = z := by
    rw [Nat.shiftRight_eq_div_pow, show (0xFF : ℕ) = 2 ^ 8 - 1 by norm_num,
      Nat.and_pow_two_sub_one_eq_mod]
    simp only [show (2 : ℕ) ^ 56 = 72057594037927936 by norm_num,
      show (2 : ℕ) ^ 36 = 68719476736 by norm_num,
      show (2 : ℕ) ^ 16 = 65536 by norm_num,
      show (2 : ℕ) ^ 8 = 256 by norm_num,
      show (2 : ℕ) ^ 20 = 1048576 by norm_num] at *
    omega
  have e2 : (z * 2 ^ 56 + x * 2 ^ 36 + y * 2 ^ 16 + e) >>> 36 &&& 0xFFFFF = x := by
    rw [Nat.shiftRight_eq_div_pow, show (0xFFFFF : ℕ) = 2 ^ 20 - 1 by norm_num,
      Nat.and_pow_two_sub_one_eq_mod]
    simp only [show (2 : ℕ) ^ 56 = 72057594037927936 by norm_num,
      show (2 : ℕ) ^ 36 = 68719476736 by norm_num,
      show (2 : ℕ) ^ 16 = 65536 by norm_num,
      show (2 : ℕ) ^ 8 = 256 by norm_num,
      show (2 : ℕ) ^ 20 = 1048576 by norm_num] at *
    omega
  have e3 : (z * 2 ^ 56 + x * 2 ^ 36 + y * 2 ^ 16 + e) >>> 16 &&& 0xFFFFF = y := by
    rw [Nat.shiftRight_eq_div_pow, show (0xFFFFF : ℕ) = 2 ^ 20 - 1 by norm_num,
      Nat.and_pow_two_sub_one_eq_mod]
    simp only [show (2 : ℕ) ^ 56 = 72057594037927936 by norm_num,
      show (2 : ℕ) ^ 36 = 68719476736 by norm_num,
      show (2 : ℕ) ^ 16 = 65536 by norm_num,
      show (2 : ℕ) ^ 8 = 256 by norm_num,
      show (2 : ℕ) ^ 20 = 1048576 by norm_num] at *
    omega
  have e4 : (z * 2 ^ 56 + x * 2 ^ 36 + y * 2 ^ 16 + e) &&& 0xFFFF = e := by
    rw [show (0xFFFF : ℕ) = 2 ^ 16 - 1 by norm_num, Nat.and_pow_two_sub_one_eq_mod]
    simp only [show (2 : ℕ) ^ 56 = 72057594037927936 by norm_num,
      show (2 : ℕ) ^ 36 = 68719476736 by norm_num,
      show (2 : ℕ) ^ 16 = 65536 by norm_num,
      show (2 : ℕ) ^ 8 = 256 by norm_num,
      show (2 : ℕ) ^ 20 = 1048576 by norm_num] at *
    omega
  rw [e1, e2, e3, e4]

/-- C7 witness: the round-trip at a concrete in-range tuple. -/
theorem edgeid_roundtrip_witness :
    edgeid.parse (edgeid.make 14 1 1 0) = (14, 1, 1, 0) :=
  edgeid_parse_make_roundtrip 14 1 1 0 (by norm_num) (by norm_num) (by norm_num) (by norm_num)


/-- Invariant preservation along a left fold. -/
theorem foldl_invariant {α β : Type} (P : β → Prop) (f : β → α → β) :
    ∀ (l : List α) (b : β), P b → (∀ acc a, a ∈ l → P acc → P (f acc a)) → P (l.foldl f b) := by
  intro l
  induction l with
  | nil => intro b hb _; exact hb
  | cons a l ih =>
    intro b hb hstep
    exact ih (f b a) (hstep b a (List.mem_cons_self a l) hb)
      (fun acc x hx h => hstep acc x (List.mem_cons_of_mem _ hx) h)

/-- Skip-first folds over index lists without index 0 are plain appends. -/
theorem foldl_skip_append_of_no_zero {α : Type} [DecidableEq α] (f : ℕ → α) (c : Bool) :
    ∀ (l : List ℕ), (∀ k ∈ l, k ≠ 0) → ∀ (out : List α),
      l.foldl (fun acc k => if c = true ∧ k = 0 ∧ acc ≠ [] then acc else acc ++ [f k]) out
        = out ++ l.map f := by
  intro l
  induction l with
  | nil => intro _ out; simp
  | cons a l ih =>
    intro hl out
    have ha : a ≠ 0 := hl a (List.mem_cons_self a l)
    have hl' : ∀ k ∈ l, k ≠ 0 := fun k hk => hl k (List.mem_cons_of_mem _ hk)
    simp only [List.foldl_cons, List.map_cons]
    rw [if_neg (by simp [ha]), ih hl' (out ++ [f a])]
    simp

/-- Factoring of the skip-first fold over `List.range n`: the result is the
input buffer followed by the mapped points, with the first point dropped
exactly when the skip flag is set and the buffer was non-empty. -/
theorem foldl_skip_append {α : Type} [DecidableEq α] (f : ℕ → α) (c : Bool) (n : ℕ) (out : List α) :
    (List.range n).foldl
        (fun acc k => if c = true ∧ k = 0 ∧ acc ≠ [] then acc else acc ++ [f k]) out
      = out ++ (if c = true ∧ out ≠ [] then ((List.range n).map f).drop 1
                else (List.range n).map f) := by
  cases n with
  | zero => simp
  | succ n =>
    rw [List.range_succ_eq_map]
    simp only [List.foldl_cons, List.map_cons]
    have hnz : ∀ k ∈ (List.range n).map Nat.succ, k ≠ 0 := by
      intro k hk
      obtain ⟨m, _, rfl⟩ := List.mem_map.mp hk
      exact Nat.succ_ne_zero m
    by_cases h : c = true ∧ out ≠ []
    · rw [if_pos (show c = true ∧ True ∧ out ≠ [] from ⟨h.1, trivial, h.2⟩), if_pos h,
        foldl_skip_append_of_no_zero f c _ hnz out]
      simp
    · rw [if_neg (show ¬(c = true ∧ True ∧ out ≠ []) by tauto), if_neg h,
        foldl_skip_append_of_no_zero f c _ hnz (out ++ [f 0])]
      simp

/-- With `first = false` the decode loop is a plain append onto `out` and
ignores the skip flag. -/
theorem decodeLoopPoly_false (fuel : ℕ) :
    ∀ (s : List ℕ) (lat lon : ℤ) (out : List (ℚ × ℚ)) (sk : Bool),
      decodeLoopPoly fuel s lat lon false out sk
        = out ++ decodeLoopPoly fuel s lat lon false [] false := by
  induction fuel with
  | zero => intro s lat lon out sk; simp [decodeLoopPoly]
  | succ fuel ih =>
    intro s lat lon out sk
    cases s with
    | nil => simp [decodeLoopPoly]
    | cons c rest =>
      simp only [decodeLoopPoly]
      rw [if_neg (by simp), if_neg (by simp)]
      rw [ih _ _ _ (out ++ [_]) sk, ih _ _ _ ([] ++ [_]) false]
      simp

/-- Factoring of the decode loop with `first = true`: the decoded point
list is appended, its head dropped exactly when skipping into a non-empty
buffer. -/
theorem decodeLoopPoly_true (fuel : ℕ) (s : List ℕ) (lat lon : ℤ)
    (out : List (ℚ × ℚ)) (sk : Bool) :
    decodeLoopPoly fuel s lat lon true out sk
      = out ++ (if sk = true ∧ out ≠ []
          then (decodeLoopPoly fuel s lat lon true [] false).drop 1
          else decodeLoopPoly fuel s lat lon true [] false) := by
  cases fuel with
  | zero => simp [decodeLoopPoly]
  | succ fuel =>
    cases s with
    | nil => simp [decodeLoopPoly]
    | cons c rest =>
      simp only [decodeLoopPoly]
      by_cases h : sk = true ∧ out ≠ []
      · rw [if_pos (by exact ⟨h.1, by trivial, h.2⟩), if_pos h]
        rw [if_neg (by simp)]
        rw [decodeLoopPoly_false fuel _ _ _ out sk,
          decodeLoopPoly_false fuel _ _ _ ([] ++ [_]) false]
        simp
      · rw [if_neg (by tauto), if_neg h]
        rw [if_neg (by simp)]
        rw [decodeLoopPoly_false fuel _ _ _ (out ++ [_]) sk,
          decodeLoopPoly_false fuel _ _ _ ([] ++ [_]) false]
        simp

/-- C5.  `appendEdgeShape` appends, after the caller's buffer, exactly the
resolved polyline — the explicit shape slice when `shape_count > 0`,
else the decoded `encoded_polyline` when present, else the two endpoint
node coordinates — dropping the first resolved point exactly when
`skipFirst` is set and the buffer is non-empty.  The hypothesis is the
data-model invariant (spec §3) that an edge with a shape slice lives in a
tile whose shape pool is present. -/
theorem appendEdgeShape_resolution (t : LandTile) (ei : ℕ) (out : List (ℚ × ℚ))
    (skip : Bool) (hv : 0 < (edgeAt t ei).shape_count → t.shapes.isSome) :
    appendEdgeShape t ei out skip =
      out ++ (if skip = true ∧ out ≠ [] then (specResolvedShape t ei).drop 1
              else specResolvedShape t ei) := by
  unfold appendEdgeShape specResolvedShape
  by_cases hc : 0 < (edgeAt t ei).shape_count
  · rw [if_pos ⟨hv hc, hc⟩, if_pos hc]
    unfold shapeSlicePoints
    exact foldl_skip_append _ skip _ out
  · rw [if_neg (by tauto), if_neg hc]
    cases hep : (edgeAt t ei).encoded_polyline with
    | some s =>
      unfold decodeEncodedPolyline decodedPoints decodeEncodedPolyline
      exact decodeLoopPoly_true _ _ _ _ out skip
    | none =>
      unfold endpointPoints
      by_cases h : skip = true ∧ out ≠ []
      · rw [if_neg (by tauto), if_pos h]
        simp
      · rw [if_pos (by tauto), if_neg h]
        simp

/-- C5 witness: the resolution equation at a concrete tile, edge, buffer
and skip flag. -/
theorem appendEdgeShape_resolution_witness :
    appendEdgeShape tileA 0 [((1 : ℚ), (2 : ℚ))] true =
      [((1 : ℚ), (2 : ℚ))] ++
        (if true = true ∧ ([((1 : ℚ), (2 : ℚ))] : List (ℚ × ℚ)) ≠ []
         then (specResolvedShape tileA 0).drop 1 else specResolvedShape tileA 0) :=
  appendEdgeShape_resolution tileA 0 [((1 : ℚ), (2 : ℚ))] true (by decide)

/-- The projection parameter of `projectPointToSegment` is always clamped
into `[0, 1]`. -/
theorem projectPointToSegment_t_bounds (ax ay bx by_ px py : ℚ) :
    0 ≤ (projectPointToSegment ax ay bx by_ px py).2.2 ∧
      (projectPointToSegment ax ay bx by_ px py).2.2 ≤ 1 := by
  unfold projectPointToSegment
  dsimp only
  split
  · exact ⟨le_refl 0, by norm_num⟩
  · exact ⟨le_max_left 0 _, max_le (by norm_num) (min_le_left 1 _)⟩

/-- C9.  Every `EdgeSnap` returned by `snapToEdge` has `t ∈ [0, 1]`, a
finite distance (`dist_m` is not the `infinity` sentinel), a non-negative
segment index, and references an edge that passes the profile's
access-mask check (`snapAllowed`) with a strictly positive profile speed
(`snapSpeed`). -/
theorem snapToEdge_invariants (geo : GeoModel) (tl : LandTile) (lat lon : ℚ)
    (profile : Profile) (s : EdgeSnap)
    (h : snapToEdge geo tl lat lon profile = some s) :
    0 ≤ s.t ∧ s.t ≤ 1 ∧ s.dist_m.isSome ∧ 0 ≤ s.segIndex ∧
      snapAllowed profile (edgeAt tl s.edgeIdx) = true ∧
      0 < snapSpeed profile (edgeAt tl s.edgeIdx) := by
  have hinv := foldl_invariant (snapInv tl profile)
    (snapEdgeStep geo tl lat lon profile) (List.range (edgeCount tl))
    ((default : EdgeSnap), false) (by intro hc; simp at hc) ?step
  case step =>
    intro acc ei _ hacc
    simp only [snapEdgeStep]
    split
    · exact hacc
    · next hgate =>
      split
      · exact hacc
      · push_neg at hgate
        refine foldl_invariant (snapInv tl profile)
          (snapSegStep geo lat lon ei (edgeAt tl ei) _) _ acc hacc ?_
        intro acc2 k _ hacc2
        simp only [snapSegStep]
        split
        · intro _
          exact ⟨(projectPointToSegment_t_bounds _ _ _ _ _ _).1,
            (projectPointToSegment_t_bounds _ _ _ _ _ _).2, by simp,
            Int.natCast_nonneg k, hgate.1, hgate.2⟩
        · exact hacc2
  unfold snapToEdge at h
  by_cases hE : edgeCount tl = 0
  · rw [if_pos hE] at h
    exact absurd h (by simp)
  · rw [if_neg hE] at h
    unfold snapResult at h
    split at h
    · exact absurd h (by simp)
    · next hflag =>
      have hs := Option.some_injective _ h
      have : ((List.range (edgeCount tl)).foldl (snapEdgeStep geo tl lat lon profile)
          ((default : EdgeSnap), false)).2 = true := by
        revert hflag
        cases ((List.range (edgeCount tl)).foldl (snapEdgeStep geo tl lat lon profile)
          ((default : EdgeSnap), false)).2 <;> simp
      rw [← hs]
      exact hinv this

section

attribute [local semireducible] Rat.add Rat.mul Rat.inv Rat.sub

/-- C9 witness: a concrete snap onto `tileA`'s edge satisfying every
conjunct. -/
theorem snapToEdge_invariants_witness :
    0 ≤ sA.t ∧ sA.t ≤ 1 ∧ sA.dist_m.isSome ∧ 0 ≤ sA.segIndex ∧
      snapAllowed Profile.Car (edgeAt tileA sA.edgeIdx) = true ∧
      0 < snapSpeed Profile.Car (edgeAt tileA sA.edgeIdx) :=
  snapToEdge_invariants geoL1 tileA 0 (90000001 / 1000000) Profile.Car sA (by decide)

end

/-- A hit's entry is removed once by `eraseEntry`, shortening the list by
exactly one. -/
theorem eraseEntry_length_of_lookup (l : List (TileKey × Blob)) (k : TileKey) (b : Blob)
    (h : lookupEntry l k = some b) : (eraseEntry l k).length + 1 = l.length := by
  induction l with
  | nil => simp [lookupEntry] at h
  | cons e rest ih =>
    by_cases he : e.1 = k
    · simp [eraseEntry, he]
    · simp only [lookupEntry, if_neg he] at h
      simp [eraseEntry, he, ih h]

/-- C6.  The LRU tile cache: capacity 0 serves loads without retaining
anything; the entry count never exceeds the capacity (per step and over
any load sequence); a miss resolved at full capacity evicts the
least-recently-used (back) entry before pushing the new front entry; a hit
returns the cached blob and promotes its entry to the front. -/
theorem tileStore_lru_spec :
    (∀ (db : TileDb) (st : CacheState) (z x y : ℤ), st.capacity = 0 → st.entries = [] →
      load db st z x y = (loadFromDb db z x y, st)) ∧
    (∀ (db : TileDb) (st : CacheState) (ks : List TileKey), st.capacity = 0 →
      st.entries = [] → (runLoads db st ks).entries = []) ∧
    (∀ (db : TileDb) (st : CacheState) (z x y : ℤ),
      st.entries.length ≤ st.capacity →
      (load db st z x y).2.entries.length ≤ (load db st z x y).2.capacity ∧
      (load db st z x y).2.capacity = st.capacity) ∧
    (∀ (db : TileDb) (st : CacheState) (ks : List TileKey),
      st.entries.length ≤ st.capacity →
      (runLoads db st ks).entries.length ≤ st.capacity) ∧
    (∀ (db : TileDb) (st : CacheState) (z x y : ℤ) (b : Blob),
      lookupEntry st.entries ⟨z, x, y⟩ = none → loadFromDb db z x y = some b →
      0 < st.capacity → st.entries.length = st.capacity →
      (load db st z x y).2.entries = (⟨z, x, y⟩, b) :: st.entries.dropLast) ∧
    (∀ (db : TileDb) (st : CacheState) (z x y : ℤ) (b : Blob),
      lookupEntry st.entries ⟨z, x, y⟩ = some b →
      load db st z x y =
        (some b, { st with entries := (⟨z, x, y⟩, b) :: eraseEntry st.entries ⟨z, x, y⟩ })) := by
  have hstep : ∀ (db : TileDb) (st : CacheState) (z x y : ℤ),
      st.entries.length ≤ st.capacity →
      (load db st z x y).2.entries.length ≤ (load db st z x y).2.capacity ∧
      (load db st z x y).2.capacity = st.capacity := by
    intro db st z x y hle
    unfold load
    cases hl : lookupEntry st.entries ⟨z, x, y⟩ with
    | some b =>
      simp only [hl]
      have := eraseEntry_length_of_lookup st.entries ⟨z, x, y⟩ b hl
      refine ⟨?_, by trivial⟩
      simp only [List.length_cons]
      omega
    | none =>
      simp only [hl]
      cases hdb : loadFromDb db z x y with
      | none => simp only [hdb]; exact ⟨hle, by trivial⟩
      | some b =>
        simp only [hdb]
        unfold insertLRU
        by_cases hc : st.capacity = 0
        · simp only [if_pos hc]
          exact ⟨hle, by trivial⟩
        · rw [if_neg hc]
          by_cases hfull : st.entries.length ≥ st.capacity
          · rw [if_pos hfull]
            refine ⟨?_, by trivial⟩
            simp only [List.length_cons, List.length_dropLast]
            omega
          · rw [if_neg hfull]
            refine ⟨?_, by trivial⟩
            simp only [List.length_cons]
            omega
  have hzero : ∀ (db : TileDb) (st : CacheState) (z x y : ℤ), st.capacity = 0 →
      st.entries = [] → load db st z x y = (loadFromDb db z x y, st) := by
    intro db st z x y hc he
    unfold load
    rw [he]
    simp only [lookupEntry]
    cases hdb : loadFromDb db z x y with
    | none => simp only [hdb]
    | some b => simp [hdb, insertLRU, hc]
  refine ⟨hzero, ?_, hstep, ?_, ?_, ?_⟩
  · intro db st ks
    induction ks generalizing st with
    | nil => intro _ he; exact he
    | cons k ks ih =>
      intro hc he
      unfold runLoads
      rw [hzero db st k.z k.x k.y hc he]
      exact ih st hc he
  · intro db st ks
    induction ks generalizing st with
    | nil => intro hle; exact hle
    | cons k ks ih =>
      intro hle
      unfold runLoads
      have h1 := hstep db st k.z k.x k.y hle
      have := ih (load db st k.z k.x k.y).2 h1.1
      rwa [h1.2] at this
  · intro db st z x y b hl hdb hc hfull
    unfold load
    simp only [hl, hdb]
    unfold insertLRU
    rw [if_neg (by omega), if_pos (by omega)]
  · intro db st z x y b hl
    unfold load
    simp only [hl]

/-- C6 witness: the four behaviours at concrete states — capacity-0 pass
through, sequence bound, eviction of the LRU entry, and hit promotion. -/
theorem tileStore_lru_spec_witness :
    load dbW { capacity := 0, entries := [] } 0 0 0 =
      (loadFromDb dbW 0 0 0, { capacity := 0, entries := [] }) ∧
    (runLoads dbW { capacity := 0, entries := [] } [⟨0, 0, 0⟩, ⟨1, 1, 1⟩]).entries = [] ∧
    (runLoads dbW { capacity := 1, entries := [] } [⟨0, 0, 0⟩, ⟨1, 1, 1⟩]).entries.length ≤ 1 ∧
    (load dbW { capacity := 1, entries := [(⟨5, 5, 5⟩, [2])] } 0 0 0).2.entries =
      (⟨0, 0, 0⟩, [1]) :: [((⟨5, 5, 5⟩ : TileKey), ([2] : Blob))].dropLast ∧
    load dbW { capacity := 1, entries := [(⟨5, 5, 5⟩, [2])] } 5 5 5 =
      (some [2],
        { capacity := 1,
          entries := ((⟨5, 5, 5⟩, [2]) :: eraseEntry [(⟨5, 5, 5⟩, [2])] ⟨5, 5, 5⟩) }) :=
  ⟨tileStore_lru_spec.1 dbW _ 0 0 0 rfl rfl,
   tileStore_lru_spec.2.1 dbW _ [⟨0, 0, 0⟩, ⟨1, 1, 1⟩] rfl rfl,
   tileStore_lru_spec.2.2.2.1 dbW _ [⟨0, 0, 0⟩, ⟨1, 1, 1⟩] (by decide),
   tileStore_lru_spec.2.2.2.2.1 dbW _ 0 0 0 [1] (by decide) (by decide) (by decide) (by decide),
   tileStore_lru_spec.2.2.2.2.2 dbW _ 5 5 5 [2] (by decide)⟩

/-- C10.  `loadFromDb` returns the null result both when the key has no
row and when the stored row's blob is NULL or zero-length, so a caller
cannot distinguish an empty stored blob from a missing tile. -/
theorem loadFromDb_null_iff_empty (db : TileDb) (z x y : ℤ)
    (h : db ⟨z, x, y⟩ = none ∨ db ⟨z, x, y⟩ = some none ∨ db ⟨z, x, y⟩ = some (some [])) :
    loadFromDb db z x y = none := by
  unfold loadFromDb
  rcases h with h | h | h <;> rw [h] <;> simp

/-- C10 witness: a stored zero-length blob loads as the null result, equal
to a missing key's result. -/
theorem loadFromDb_null_iff_empty_witness : loadFromDb dbEmptyBlob 0 0 0 = none :=
  loadFromDb_null_iff_empty dbEmptyBlob 0 0 0 (by decide)

/-- C2 amended.  The heuristic of the bidirectional search `route()` uses
(`astarGlobalBi`) divides haversine by the literal 13.9 for both profiles;
it equals the spec's heuristic only for the Car profile, while the
profile-dependent speed pair of the spec exists in the code only as
`routeSingleTile`'s `speedHeur`, which `route()` never calls. -/
theorem astarHeuristic_profile_independent (geo : GeoModel) (nodes : Array GlobalNode)
    (tgt v : ℕ) (profile : Profile) :
    astarHeuristic geo nodes tgt v =
      geo.haversine (nodes.getD v default).lat (nodes.getD v default).lon
        (nodes.getD tgt default).lat (nodes.getD tgt default).lon / (139 / 10) ∧
    astarHeuristic geo nodes tgt v = specHeuristic geo Profile.Car nodes tgt v ∧
    routeSingleTileSpeedHeur profile = specHSpeed profile := by
  refine ⟨rfl, ?_, rfl⟩
  unfold astarHeuristic specHeuristic specHSpeed
  simp

/-- C1 supporting theorem.  `route` reads the waypoint list only through
`front()` and `back()`: its result is unchanged when the interior
waypoints are replaced by anything (here: dropped), for every geodesy,
fuel, store, zoom and profile.  This refutes the claim that consecutive
waypoint pairs are routed and concatenated. -/
theorem route_ignores_intermediate_waypoints (geo : GeoModel) (fuel : ℕ)
    (store : TileKey → Option LandTile) (tileZoom : ℕ) (profile : Profile)
    (w : List Coord) (h : 2 ≤ w.length) :
    route geo fuel store tileZoom profile w =
      route geo fuel store tileZoom profile [w.head!, w.getLast!] := by
  unfold route
  rw [if_neg (by omega), if_neg (by simp)]
  rfl

/-- C1 witness: the three-waypoint request equals the two-waypoint request
with the interior waypoint dropped. -/
theorem route_ignores_intermediate_waypoints_witness :
    route geoL1 20 storeA 1 Profile.Car [coordA1, coordA3, coordA2] =
      route geoL1 20 storeA 1 Profile.Car [coordA1, coordA2] :=
  route_ignores_intermediate_waypoints geoL1 20 storeA 1 Profile.Car
    [coordA1, coordA3, coordA2] (by decide)

/-- Every non-OK exit of `routeMain` carries a non-empty message. -/
theorem routeMain_nonOK_message (geo : GeoModel) (fuel : ℕ)
    (store : TileKey → Option LandTile) (tileZoom : ℕ) (profile : Profile) (a b : Coord) :
    (routeMain geo fuel store tileZoom profile a b).1.status ≠ .OK →
    (routeMain geo fuel store tileZoom profile a b).1.error_message ≠ "" := by
  unfold routeMain
  dsimp only
  split
  · intro _; simp
  · split
    · intro _; simp
    · intro _; simp
    · repeat' split
      all_goals intro h
      all_goals try simp
      all_goals exact absurd rfl h

/-- C8.  A call with fewer than two waypoints returns INTERNAL_ERROR with
the fixed non-empty message and performs no tile-store load (empty trace);
in the model `route` is a total function, so no exception escapes; and
every non-OK result carries a non-empty error message. -/
theorem route_error_reporting :
    (∀ (geo : GeoModel) (fuel : ℕ) (store : TileKey → Option LandTile) (tileZoom : ℕ)
        (profile : Profile) (w : List Coord), w.length < 2 →
      route geo fuel store tileZoom profile w =
        ({ status := .INTERNAL_ERROR, error_message := "need at least 2 waypoints" }, [])) ∧
    (∀ (geo : GeoModel) (fuel : ℕ) (store : TileKey → Option LandTile) (tileZoom : ℕ)
        (profile : Profile) (w : List Coord),
      (route geo fuel store tileZoom profile w).1.status ≠ .OK →
      (route geo fuel store tileZoom profile w).1.error_message ≠ "") := by
  constructor
  · intro geo fuel store tz p w h
    unfold route
    rw [if_pos h]
  · intro geo fuel store tz p w h
    unfold route at h ⊢
    by_cases hlen : w.length < 2
    · rw [if_pos hlen]
      simp
    · rw [if_neg hlen] at h ⊢
      exact routeMain_nonOK_message geo fuel store tz p _ _ h

/-- C8 witness: the empty waypoint list yields exactly the INTERNAL_ERROR
result with no store loads, and its message is non-empty. -/
theorem route_error_reporting_witness :
    route geo0 0 store0 0 Profile.Car [] =
      ({ status := .INTERNAL_ERROR, error_message := "need at least 2 waypoints" }, []) ∧
    (route geo0 0 store0 0 Profile.Car []).1.error_message ≠ "" :=
  ⟨route_error_reporting.1 geo0 0 store0 0 Profile.Car [] (by decide),
   route_error_reporting.2 geo0 0 store0 0 Profile.Car [] (by decide)⟩

section

attribute [local semireducible] Rat.add Rat.mul Rat.inv Rat.sub

/-- C2 counterexample.  At a concrete pair of global nodes whose surrogate
haversine distance is 13.9, the heuristic used by `route()`'s search
(`astarHeuristic`, the `hF`/`hB` of `astarGlobalBi`) evaluates to 1 for
the Foot profile as well, differing from the claimed
`haversine / h_speed(Foot) = haversine / 1.4`. -/
theorem astarHeuristic_foot_counterexample :
    astarHeuristic geoL1 nodesC2 1 0 ≠ specHeuristic geoL1 Profile.Foot nodesC2 1 0 := by
  decide

/-- C3 supporting theorem.  A concrete successful multi-tile route whose
`edge_ids` consists of the id `(z=1, x=0, y=0, edge 0)` emitted for the
virtual half-edges, although no tile was loaded (or exists) at `(1,0,0)`:
the id fails the claim's loaded-tile/existing-edge/access requirements. -/
theorem route_edge_ids_unloaded_tile :
    (route geoL1 20 storeA 1 Profile.Car [coordA1, coordA2]).1.status = RouteStatus.OK ∧
    (route geoL1 20 storeA 1 Profile.Car [coordA1, coordA2]).1.edge_ids =
      [edgeid.make 1 0 0 0] ∧
    storeA ⟨1, 0, 0⟩ = none := by
  decide

/-- C4 supporting theorem.  The same successful route returns status OK
with an empty polyline (fewer than 2 points), refuting
`OK ⇒ polyline.size() ≥ 2`. -/
theorem route_ok_with_empty_polyline :
    (route geoL1 20 storeA 1 Profile.Car [coordA1, coordA2]).1.status = RouteStatus.OK ∧
    (route geoL1 20 storeA 1 Profile.Car [coordA1, coordA2]).1.polyline = [] := by
  decide

end

end LoxxCore
